import Mathlib

/-!
Shallow embedding of the scheduler engine of `src/simulador_procesos.py`
(class `Scheduler` and its `Process` records).  The Qt view layer is out of
scope.  Python lists and deques become Lean `List`s (with `popleft` = head,
`append` = snoc); in-place mutation of a process object found by `get_proc`
becomes an update of the first pid-occurrence in `get_proc`'s search order;
the random source (`random.random`, `random.randint`) becomes an explicit
oracle argument, so every behaviour of the code is a behaviour of the model
for some oracle value.  Python `int` fields that the code can drive below
zero (`remaining_time`, `io_remaining`, bursts) are `Int`.
-/

namespace Simulador

/-- `ProcessState` enum of the source. -/
inductive ProcessState where
  | NEW
  | READY
  | RUNNING
  | BLOCKED
  | PAUSED
  | FINISHED
  | ZOMBIE
deriving DecidableEq, Repr

/-- `BlockReason` enum of the source.  The source's `IO` member is spelled
`Io` here because `IO` is a core Lean name. -/
inductive BlockReason where
  | Io
  | DEPENDENCY
  | PAUSED
deriving DecidableEq, Repr

/-- `Priority` enum of the source. -/
inductive Priority where
  | HIGH
  | MEDIUM
  | LOW
deriving DecidableEq, Repr

/-- `PRIO_QUANTUM = {HIGH: 3, MEDIUM: 2, LOW: 1}` (module-level constant). -/
def PRIO_QUANTUM : Priority → Nat
  | Priority.HIGH => 3
  | Priority.MEDIUM => 2
  | Priority.LOW => 1

/-- `Scheduler.WRR_WEIGHTS = {HIGH: 2, MEDIUM: 2, LOW: 1}` (as in the code;
the file-header comment advertises MEDIUM weight 1, but the dict says 2). -/
def WRR_WEIGHTS : Priority → Int
  | Priority.HIGH => 2
  | Priority.MEDIUM => 2
  | Priority.LOW => 1

/-- `Scheduler.PRIO_CYCLE = [HIGH, MEDIUM, LOW]`, indexed by the WRR cursor
`_wrr_idx`, which the code keeps in `0..2` via `% len(PRIO_CYCLE)`. -/
def cycleClass : Nat → Priority
  | 0 => Priority.HIGH
  | 1 => Priority.MEDIUM
  | _ => Priority.LOW

/-- The `@dataclass Process` of the source (field defaults included). -/
structure Process where
  pid : Nat
  arrival_time : Nat
  burst_time : Int
  remaining_time : Int
  state : ProcessState := ProcessState.NEW
  block_reason : Option BlockReason := none
  waiting_for_pid : Option Nat := none
  io_remaining : Int := 0
  priority : Priority := Priority.MEDIUM
deriving DecidableEq, Repr

/-- The mutable state of a `Scheduler` instance: `__init__`'s fields.
`mailboxes` (a `defaultdict(list)` of `(from_pid, msg, time)` triples keyed
by recipient pid) is an association list keeping only the `from_pid`s,
since matching in `_unblock_by_replies` reads nothing but the source pid. -/
structure Scheduler where
  time : Nat
  next_pid : Nat
  simulate_zombie : Bool
  repeat_mode : Bool
  new : List Process
  ready : List Process
  blocked : List Process
  finished : List Process
  zombies : List Process
  running : Option Process
  mailboxes : List (Nat × List Nat)
  spawned_when_empty : Bool
  quantum_used : Nat
  wrr_idx : Nat
  wrr_budget : Int
deriving DecidableEq, Repr

/-- `Scheduler.__init__(simulate_zombie, repeat_mode)`. -/
def Scheduler.init (simulate_zombie repeat_mode : Bool) : Scheduler where
  time := 0
  next_pid := 1
  simulate_zombie := simulate_zombie
  repeat_mode := repeat_mode
  new := []
  ready := []
  blocked := []
  finished := []
  zombies := []
  running := none
  mailboxes := []
  spawned_when_empty := false
  quantum_used := 0
  wrr_idx := 0
  wrr_budget := WRR_WEIGHTS (cycleClass 0)

/-- `system_empty`: no NEW, READY or RUNNING process. -/
def Scheduler.system_empty (s : Scheduler) : Bool :=
  !(!s.new.isEmpty || !s.ready.isEmpty || s.running.isSome)

/-- `get_proc` search over one list: first process with the pid. -/
def findPid (pid : Nat) (l : List Process) : Option Process :=
  l.find? (fun p => p.pid == pid)

/-- `get_proc(pid)`: the running slot first, then the lists in the order
`ready, blocked, new, finished, zombies`. -/
def Scheduler.get_proc (s : Scheduler) (pid : Nat) : Option Process :=
  match s.running with
  | some r =>
      if r.pid = pid then some r
      else (findPid pid s.ready).orElse fun _ =>
           (findPid pid s.blocked).orElse fun _ =>
           (findPid pid s.new).orElse fun _ =>
           (findPid pid s.finished).orElse fun _ =>
           findPid pid s.zombies
  | none =>
      (findPid pid s.ready).orElse fun _ =>
      (findPid pid s.blocked).orElse fun _ =>
      (findPid pid s.new).orElse fun _ =>
      (findPid pid s.finished).orElse fun _ =>
      findPid pid s.zombies

/-- `create_process(burst)`: a fresh NEW process appended to `self.new`;
the source performs no validation of `burst` whatsoever. -/
def Scheduler.create_process (s : Scheduler) (burst : Int) : Process × Scheduler :=
  let p : Process :=
    { pid := s.next_pid, arrival_time := s.time, burst_time := burst, remaining_time := burst }
  (p, { s with next_pid := s.next_pid + 1, new := s.new ++ [p] })

/-- Update the first process with the given pid in a list (identity if the
pid is absent): the value-level rendering of mutating the object in place. -/
def updateFirst (pid : Nat) (f : Process → Process) : List Process → List Process
  | [] => []
  | p :: rest => if p.pid = pid then f p :: rest else p :: updateFirst pid f rest

/-- Does some process in the list carry the pid? -/
def containsPid (pid : Nat) (l : List Process) : Bool :=
  l.any (fun p => p.pid == pid)

/-- The list part of `get_proc`'s search order: update the first occurrence
of the pid in the first of `ready, blocked, new, finished, zombies` that
holds it. -/
def Scheduler.mutateLists (s : Scheduler) (pid : Nat) (f : Process → Process) : Scheduler :=
  if containsPid pid s.ready then { s with ready := updateFirst pid f s.ready }
  else if containsPid pid s.blocked then { s with blocked := updateFirst pid f s.blocked }
  else if containsPid pid s.new then { s with new := updateFirst pid f s.new }
  else if containsPid pid s.finished then { s with finished := updateFirst pid f s.finished }
  else if containsPid pid s.zombies then { s with zombies := updateFirst pid f s.zombies }
  else s

/-- Value-level rendering of "mutate the object `get_proc(pid)` returned":
update the first occurrence of the pid, following `get_proc`'s search order
(running slot, then ready, blocked, new, finished, zombies). -/
def Scheduler.mutateProc (s : Scheduler) (pid : Nat) (f : Process → Process) : Scheduler :=
  match s.running with
  | some r =>
      if r.pid = pid then { s with running := some (f r) }
      else s.mutateLists pid f
  | none => s.mutateLists pid f

/-- `set_priority(pid, prio)`: sets the priority on the found process, and
resets `_quantum_used` when that pid is the running one. -/
def Scheduler.set_priority (s : Scheduler) (pid : Nat) (prio : Priority) : Bool × Scheduler :=
  match s.get_proc pid with
  | none => (false, s)
  | some _ =>
      let s1 := s.mutateProc pid (fun p => { p with priority := prio })
      let s2 :=
        match s1.running with
        | some r => if r.pid = pid then { s1 with quantum_used := 0 } else s1
        | none => s1
      (true, s2)

/-- `admit_all_new`: every NEW process is set READY and appended (in order)
to the ready deque; `self.new` is left empty. -/
def Scheduler.admit_all_new (s : Scheduler) : Scheduler :=
  { s with new := [],
           ready := s.ready ++ s.new.map (fun p => { p with state := ProcessState.READY }) }

/-- `_advance_wrr`: step the cursor cyclically and reload the budget of the
class it now points at. -/
def Scheduler.advance_wrr (s : Scheduler) : Scheduler :=
  let i := (s.wrr_idx + 1) % 3
  { s with wrr_idx := i, wrr_budget := WRR_WEIGHTS (cycleClass i) }

/-- Remove the first element satisfying `f`, keeping every other element in
its relative order.  The source walks the deque with `enumerate`, pops the
prefix before the match, pops the match, and pushes the prefix back with
`appendleft` in reverse — the net effect modelled here. -/
def popFirstWith (f : Process → Bool) : List Process → Option (Process × List Process)
  | [] => none
  | p :: rest =>
      if f p then some (p, rest)
      else
        match popFirstWith f rest with
        | none => none
        | some (q, rest2) => some (q, p :: rest2)

/-- `_pop_ready_by_priority(prio)`: extract the first READY process of the
given class, FIFO within the class. -/
def Scheduler.pop_ready_by_priority (s : Scheduler) (prio : Priority) :
    Option Process × Scheduler :=
  match popFirstWith (fun c => c.priority == prio) s.ready with
  | none => (none, s)
  | some (p, rest) => (some p, { s with ready := rest })

/-- The `while attempts < max_attempts` loop of `choose_next`, with the
remaining attempt count as fuel (the code bounds it by
`len(PRIO_CYCLE) * (max(WRR_WEIGHTS.values()) + 1) = 9`).  Fuel 0 is the
fallback `self.ready.popleft()` after the loop; on the empty deque the
source would raise, which cannot happen behind `choose_next`'s guard, and
the model returns no choice there. -/
def chooseLoop : Nat → Scheduler → Option Process × Scheduler
  | 0, s =>
      match s.ready with
      | [] => (none, s)
      | p :: rest =>
          (some { p with state := ProcessState.RUNNING },
           { s with ready := rest, quantum_used := 0 })
  | n + 1, s =>
      let current := cycleClass s.wrr_idx
      let has := s.ready.any (fun p => p.priority == current)
      if !has || s.wrr_budget ≤ 0 then chooseLoop n s.advance_wrr
      else
        match s.pop_ready_by_priority current with
        | (none, s1) => chooseLoop n s1.advance_wrr
        | (some p, s1) =>
            (some { p with state := ProcessState.RUNNING },
             { s1 with wrr_budget := s1.wrr_budget - 1, quantum_used := 0 })

/-- `choose_next`: weighted round-robin over the priority classes. -/
def Scheduler.choose_next (s : Scheduler) : Option Process × Scheduler :=
  if s.ready.isEmpty then (none, s) else chooseLoop 9 s

/-- The per-process test of `_orphan_dependents`: DEPENDENCY-blocked on the
given callee pid. -/
def waitsOn (callee_pid : Nat) (p : Process) : Bool :=
  p.block_reason == some BlockReason.DEPENDENCY && p.waiting_for_pid == some callee_pid

/-- `_orphan_dependents(callee_pid)`: every blocked process waiting on the
callee is moved (in order) to `zombies` with its wait fields cleared and
state ZOMBIE. -/
def Scheduler.orphan_dependents (s : Scheduler) (callee_pid : Nat) : Scheduler :=
  { s with
    blocked := s.blocked.filter (fun p => !waitsOn callee_pid p),
    zombies := s.zombies ++ (s.blocked.filter (waitsOn callee_pid)).map (fun p =>
      { p with block_reason := none, waiting_for_pid := none,
               state := ProcessState.ZOMBIE }) }

/-- `_preempt_running_if_needed`: when the RUNNING process has used at least
its class quantum and READY is non-empty, it is re-queued at the tail with
state READY (wait fields scrubbed) and the slot is cleared. -/
def Scheduler.preempt_running_if_needed (s : Scheduler) : Scheduler :=
  match s.running with
  | none => s
  | some r =>
      if PRIO_QUANTUM r.priority ≤ s.quantum_used ∧ 0 < s.ready.length then
        { s with
          running := none,
          ready := s.ready ++ [{ r with state := ProcessState.READY, block_reason := none,
                                        waiting_for_pid := none, io_remaining := 0 }] }
      else s

/-- `block_running(reason)`: move the RUNNING process (if any) to `blocked`
with the reason set; PAUSED gets state PAUSED, the rest state BLOCKED.  The
random `randint(3, 10)` I/O duration is the explicit `ioDur` argument,
written only in the I/O branch. -/
def Scheduler.block_running (s : Scheduler) (reason : BlockReason) (ioDur : Int) :
    Bool × Scheduler :=
  match s.running with
  | none => (false, s)
  | some r =>
      let st := if reason = BlockReason.PAUSED then ProcessState.PAUSED
                else ProcessState.BLOCKED
      let r1 := { r with state := st, block_reason := some reason }
      let r2 := if reason = BlockReason.Io then { r1 with io_remaining := ioDur } else r1
      (true, { s with blocked := s.blocked ++ [r2], running := none })

/-- `_finish_running`: in repeat mode the RUNNING process returns to READY
with its burst restored; otherwise it goes to `zombies` or `finished`
(per `simulate_zombie`) and its dependents are orphaned; the slot is
cleared in every branch. -/
def Scheduler.finish_running (s : Scheduler) : Scheduler :=
  match s.running with
  | none => s
  | some r =>
      if s.repeat_mode then
        { s with
          running := none,
          ready := s.ready ++ [{ r with remaining_time := r.burst_time,
                                        state := ProcessState.READY }] }
      else
        let s1 :=
          if s.simulate_zombie then
            ({ s with zombies := s.zombies ++ [{ r with state := ProcessState.ZOMBIE }]
             : Scheduler }).orphan_dependents r.pid
          else
            ({ s with finished := s.finished ++ [{ r with state := ProcessState.FINISHED }]
             : Scheduler }).orphan_dependents r.pid
        { s1 with running := none }

/-- `revive_for_cycle(include_zombies)`: FINISHED (then, if asked, ZOMBIE)
processes are re-queued READY with their bursts restored; returns how many. -/
def Scheduler.revive_for_cycle (s : Scheduler) (include_zombies : Bool) : Nat × Scheduler :=
  let revive := fun (p : Process) =>
    { p with remaining_time := p.burst_time, state := ProcessState.READY }
  let s1 := { s with finished := [], ready := s.ready ++ s.finished.map revive }
  if include_zombies then
    (s.finished.length + s.zombies.length,
     { s1 with zombies := [], ready := s1.ready ++ s.zombies.map revive })
  else
    (s.finished.length, s1)

/-- `self.mailboxes.get(pid, [])` on the association list. -/
def mailboxGet (mb : List (Nat × List Nat)) (pid : Nat) : List Nat :=
  match mb.find? (fun e => e.1 == pid) with
  | some e => e.2
  | none => []

/-- Store a recipient's inbox back (defaultdict keys are unique; a missing
key is appended, which only happens on `reply`). -/
def mailboxSet (mb : List (Nat × List Nat)) (pid : Nat) (inbox : List Nat) :
    List (Nat × List Nat) :=
  match mb with
  | [] => [(pid, inbox)]
  | e :: rest => if e.1 = pid then (pid, inbox) :: rest else e :: mailboxSet rest pid inbox

/-- `reply(from_pid, to_pid, msg)`: append a message (only its source pid
matters to the engine) to the recipient's mailbox. -/
def Scheduler.reply (s : Scheduler) (from_pid to_pid : Nat) : Scheduler :=
  { s with mailboxes := mailboxSet s.mailboxes to_pid (mailboxGet s.mailboxes to_pid ++ [from_pid]) }

/-- Remove the first element equal to `p` (Python `list.remove` uses the
dataclass field equality). -/
def removeFirstEq (p : Process) : List Process → List Process
  | [] => []
  | q :: rest => if q = p then rest else q :: removeFirstEq p rest

/-- One iteration of the `for p in list(self.blocked)` loop of
`_unblock_by_replies`: if `p` is DEPENDENCY-blocked and its inbox holds a
message from the pid it waits on, consume that message and move `p`
(cleared, READY) from `blocked` to the ready tail. -/
def unblockByRepliesStep (s : Scheduler) (p : Process) : Scheduler :=
  if p.block_reason == some BlockReason.DEPENDENCY && p.waiting_for_pid.isSome then
    match p.waiting_for_pid with
    | none => s
    | some w =>
        let inbox := mailboxGet s.mailboxes p.pid
        match inbox.findIdx? (fun src => src == w) with
        | none => s
        | some idx =>
            let s1 := { s with
              mailboxes := mailboxSet s.mailboxes p.pid (inbox.take idx ++ inbox.drop (idx + 1)) }
            { s1 with
              blocked := removeFirstEq p s1.blocked,
              ready := s1.ready ++ [{ p with block_reason := none, waiting_for_pid := none,
                                             state := ProcessState.READY }] }
  else s

/-- `_unblock_by_replies`: the loop runs over a snapshot of `blocked`. -/
def Scheduler.unblock_by_replies (s : Scheduler) : Scheduler :=
  s.blocked.foldl unblockByRepliesStep s

/-- `_unblock_dependents_of(callee_pid)`: every blocked process waiting on
the callee moves (in order, cleared, READY) to the ready tail. -/
def Scheduler.unblock_dependents_of (s : Scheduler) (callee_pid : Nat) : Scheduler :=
  { s with
    blocked := s.blocked.filter (fun p => !waitsOn callee_pid p),
    ready := s.ready ++ (s.blocked.filter (waitsOn callee_pid)).map (fun p =>
      { p with block_reason := none, waiting_for_pid := none,
               state := ProcessState.READY }) }

/-- `reset(keep_options)`: re-run `__init__` on the same instance. -/
def Scheduler.reset (s : Scheduler) (keep_options : Bool) : Scheduler :=
  Scheduler.init (if keep_options then s.simulate_zombie else false)
                 (if keep_options then s.repeat_mode else true)

/-- `depend_on(caller_pid, callee_pid)`: the caller (if found anywhere) gets
its wait fields set in place; a running caller goes through `block_running`,
any other caller is removed from `ready` if present (`list.remove` wrapped
in `try/except`), set BLOCKED in place, and appended to `blocked`. -/
def Scheduler.depend_on (s : Scheduler) (caller_pid callee_pid : Nat) : Bool × Scheduler :=
  match s.get_proc caller_pid with
  | none => (false, s)
  | some p0 =>
      let setWait := fun (q : Process) =>
        { q with block_reason := some BlockReason.DEPENDENCY,
                 waiting_for_pid := some callee_pid }
      let p := setWait p0
      let s1 := s.mutateProc caller_pid setWait
      if (match s1.running with | some r => r.pid == caller_pid | none => false) then
        (true, (s1.block_running BlockReason.DEPENDENCY 0).2)
      else
        let s2 := { s1 with ready := removeFirstEq p s1.ready }
        let s3 := s2.mutateProc caller_pid (fun q => { q with state := ProcessState.BLOCKED })
        (true, { s3 with blocked := s3.blocked ++ [{ p with state := ProcessState.BLOCKED }] })

/-- `finalize_pid`'s inner helper `finish_to_state(proc)`: append the
process to `zombies` as a ZOMBIE or to `finished` as FINISHED, according to
`simulate_zombie`. -/
def Scheduler.finish_to_state (s : Scheduler) (proc : Process) : Scheduler :=
  if s.simulate_zombie then
    { s with zombies := s.zombies ++ [{ proc with state := ProcessState.ZOMBIE }] }
  else
    { s with finished := s.finished ++ [{ proc with state := ProcessState.FINISHED }] }

/-- The list part of `finalize_pid(pid)`: the four `for p in list(...)`
loops, each removing the first entry with the pid (`list.remove` on the
unmutated object) and taking its branch.  The `ready`, `blocked` and
`finished` branches run `finish_to_state` and `_orphan_dependents`; the
`zombies` branch only moves the process to `finished` as FINISHED — it
calls no orphaning. -/
def Scheduler.finalize_pid_lists (s : Scheduler) (pid : Nat) : Bool × Scheduler :=
  match popFirstWith (fun p => p.pid == pid) s.ready with
  | some (p, rest) =>
      (true, (({ s with ready := rest : Scheduler }).finish_to_state p).orphan_dependents pid)
  | none =>
    match popFirstWith (fun p => p.pid == pid) s.blocked with
    | some (p, rest) =>
        let p1 := { p with block_reason := none, waiting_for_pid := none, io_remaining := 0 }
        (true,
         (({ s with blocked := rest : Scheduler }).finish_to_state p1).orphan_dependents pid)
    | none =>
      match popFirstWith (fun p => p.pid == pid) s.zombies with
      | some (p, rest) =>
          (true, { s with zombies := rest,
                          finished := s.finished ++ [{ p with state := ProcessState.FINISHED }] })
      | none =>
        match popFirstWith (fun p => p.pid == pid) s.finished with
        | some (p, rest) =>
            (true,
             (({ s with finished := rest : Scheduler }).finish_to_state p).orphan_dependents pid)
        | none => (false, s)

/-- `finalize_pid(pid)`: force-finish the first process found with the pid,
checking the running slot first and then the lists in the order
`ready, blocked, zombies, finished`. -/
def Scheduler.finalize_pid (s : Scheduler) (pid : Nat) : Bool × Scheduler :=
  match s.running with
  | some r =>
      if r.pid = pid then
        (true, { (s.finish_to_state r).orphan_dependents pid with running := none })
      else s.finalize_pid_lists pid
  | none => s.finalize_pid_lists pid

/-- The outcomes of one tick's random draws (`self._rnd`), made explicit:
`arriveDraw` is `random.random() < 0.05`, `arriveBurst` an outcome of
`randint(3, 10)` for an injected arrival, `blockDraw` is
`random.random() < 0.04`, `ioDur` an outcome of `randint(3, 10)` for a
random I/O block.  Quantifying over the oracle covers every draw. -/
structure TickOracle where
  arriveDraw : Bool
  arriveBurst : Int
  blockDraw : Bool
  ioDur : Int
deriving DecidableEq, Repr

/-- Tick step 2 (`# 2) Llegadas automáticas`): with auto-arrivals on, a
process is created with probability 0.05 while anything is RUNNING, READY
or BLOCKED; with none of those present, exactly one process is injected,
latched by `_spawned_when_empty`. -/
def Scheduler.arrivalsPhase (s : Scheduler) (auto_arrivals : Bool) (o : TickOracle) :
    Scheduler :=
  if auto_arrivals then
    let active := (match s.running with | some _ => 1 | none => 0)
                  + s.ready.length + s.blocked.length
    if 0 < active then
      let s1 := if o.arriveDraw then (s.create_process o.arriveBurst).2 else s
      { s1 with spawned_when_empty := false }
    else
      if !s.spawned_when_empty then
        { (s.create_process o.arriveBurst).2 with spawned_when_empty := true }
      else s
  else s

/-- One iteration of tick step 4's loop over a snapshot of `blocked`: a
BLOCKED/IO process with time left on its timer is decremented, and moves
(reason cleared, READY) to the ready tail when the timer runs out.  The
accumulator carries the rebuilt blocked list and the ready appendees. -/
def ioStep (acc : List Process × List Process) (p : Process) :
    List Process × List Process :=
  if p.block_reason == some BlockReason.Io && 0 < p.io_remaining then
    let p1 := { p with io_remaining := p.io_remaining - 1 }
    if p1.io_remaining ≤ 0 then
      (acc.1, acc.2 ++ [{ p1 with block_reason := none, state := ProcessState.READY }])
    else
      (acc.1 ++ [p1], acc.2)
  else
    (acc.1 ++ [p], acc.2)

/-- Tick step 4 (`# 4) Desbloqueos por I/O`). -/
def Scheduler.ioCountdownPhase (s : Scheduler) : Scheduler :=
  let r := s.blocked.foldl ioStep ([], [])
  { s with blocked := r.1, ready := s.ready ++ r.2 }

/-- Tick step 6 (`# 6)`): in repeat mode with no READY and no RUNNING but
something FINISHED or ZOMBIE, revive everything for another cycle. -/
def Scheduler.revivePhase (s : Scheduler) : Scheduler :=
  if s.repeat_mode && s.ready.isEmpty && s.running.isNone
     && (!s.finished.isEmpty || !s.zombies.isEmpty) then
    (s.revive_for_cycle true).2
  else s

/-- Tick step 7 (`# 7)`): fill an empty RUNNING slot from `choose_next`. -/
def Scheduler.dispatchPhase (s : Scheduler) : Scheduler :=
  match s.running with
  | some _ => s
  | none =>
      let r := s.choose_next
      { r.2 with running := r.1 }

/-- Tick step 8 (`# 8) Ejecutar el RUNNING`): dependents of the running pid
are released first; then either a random I/O block consumes the tick, or
one unit of remaining time and of quantum is charged, followed by
completion handling or the preemption check. -/
def Scheduler.execPhase (s : Scheduler) (auto_blocks : Bool) (o : TickOracle) : Scheduler :=
  match s.running with
  | none => s
  | some r =>
      let s1 := s.unblock_dependents_of r.pid
      if auto_blocks && o.blockDraw then
        (s1.block_running BlockReason.Io o.ioDur).2
      else
        let r1 : Process := { r with remaining_time := r.remaining_time - 1 }
        let s2 := { s1 with running := some r1, quantum_used := s1.quantum_used + 1 }
        if r1.remaining_time ≤ (0 : Int) then s2.finish_running
        else s2.preempt_running_if_needed

/-- `tick(auto_arrivals, auto_blocks)`: advance the clock, then run the
numbered phases of the source in order (arrivals, admission, I/O countdown,
reply unblocking, cycle revival, dispatch, execution). -/
def Scheduler.tick (s : Scheduler) (auto_arrivals auto_blocks : Bool) (o : TickOracle) :
    Scheduler :=
  (((((({ s with time := s.time + 1 : Scheduler
        }.arrivalsPhase auto_arrivals o
        ).admit_all_new
        ).ioCountdownPhase
        ).unblock_by_replies
        ).revivePhase
        ).dispatchPhase
        ).execPhase auto_blocks o

/-! ### Derived notions used by the claims -/

/-- Repeated `create_process` calls (and nothing else) on one instance:
the list of returned pids together with the final state. -/
def createMany (s : Scheduler) : List Int → List Nat × Scheduler
  | [] => ([], s)
  | b :: rest =>
      let r := s.create_process b
      let rr := createMany r.2 rest
      (r.1.pid :: rr.1, rr.2)

/-- No process stored in the five collections has state RUNNING. -/
def collOK (l : List Process) : Prop :=
  ∀ p ∈ l, p.state ≠ ProcessState.RUNNING

/-- The single-runner side condition on a scheduler state: none of `new`,
`ready`, `blocked`, `finished`, `zombies` stores a RUNNING process. -/
def Scheduler.NoRunQueued (s : Scheduler) : Prop :=
  collOK s.new ∧ collOK s.ready ∧ collOK s.blocked ∧ collOK s.finished ∧ collOK s.zombies

/-- Every process the scheduler holds: the running slot and the five
collections. -/
def Scheduler.allProcs (s : Scheduler) : List Process :=
  s.running.toList ++ s.new ++ s.ready ++ s.blocked ++ s.finished ++ s.zombies

/-- Sample oracle: no random arrival, no random block. -/
def quietOracle : TickOracle :=
  { arriveDraw := false, arriveBurst := 4, blockDraw := false, ioDur := 5 }

/-- Sample process occupying the running slot (pid 1, MEDIUM). -/
def demoRunning : Process :=
  { pid := 1, arrival_time := 0, burst_time := 5, remaining_time := 4,
    state := ProcessState.RUNNING }

/-- Sample scheduler whose only process is `demoRunning` in the slot. -/
def demoSched : Scheduler :=
  { Scheduler.init false false with running := some demoRunning }

/-! ### C2 — pid monotonicity across the instance lifetime -/

lemma createMany_pids (s : Scheduler) (bs : List Int) :
    (createMany s bs).1 = List.range' s.next_pid bs.length := by
  induction bs generalizing s with
  | nil => rfl
  | cons b rest ih => simp [createMany, Scheduler.create_process, List.range', ih]

/-- Claim C2 counterexample: `reset` re-runs `__init__` on the same
instance, so the very same scheduler value hands out pid 1 from
`create_process` both before and after a `reset` — a pid is returned twice
within the instance's lifetime. -/
theorem claim_C2_counterexample :
    ((Scheduler.init false true).create_process 5).1.pid = 1 ∧
    ((((Scheduler.init false true).create_process 5).2.reset true).create_process 7).1.pid
      = 1 := by
  decide

/-- Claim C2 (amended: pids never repeat *between resets*; `reset` restarts
the counter at 1): any sequence of `create_process` calls with no
intervening `reset` returns strictly increasing, duplicate-free pids. -/
theorem claim_C2 (s : Scheduler) (bursts : List Int) :
    ((createMany s bursts).1).Pairwise (· < ·) ∧ ((createMany s bursts).1).Nodup := by
  rw [createMany_pids]
  constructor
  · exact List.pairwise_lt_range' s.next_pid bursts.length
  · exact List.nodup_range' s.next_pid bursts.length

/-! ### C4 — create_process with non-positive burst -/

/-- Claim C4 counterexample: `create_process(0)` is not rejected — on a
fresh scheduler it creates a process and bumps the pid counter. -/
theorem claim_C4_counterexample :
    ((Scheduler.init false true).create_process 0).2 ≠ Scheduler.init false true ∧
    ((Scheduler.init false true).create_process 0).2.next_pid = 2 ∧
    ((Scheduler.init false true).create_process 0).2.new.length = 1 := by
  decide

/-- Claim C4 (amended: a zero or negative burst is *accepted* like any
other — the source has no validation): the call creates a NEW process
carrying that burst, appends it to `new`, and increments `next_pid`;
rejecting bad bursts is left to callers. -/
theorem claim_C4 (s : Scheduler) (burst : Int) (_hb : burst ≤ 0) :
    (s.create_process burst).1.burst_time = burst ∧
    (s.create_process burst).1.remaining_time = burst ∧
    (s.create_process burst).1.state = ProcessState.NEW ∧
    (s.create_process burst).2.next_pid = s.next_pid + 1 ∧
    (s.create_process burst).2.new = s.new ++ [(s.create_process burst).1] := by
  simp [Scheduler.create_process]

/-- Witness for C4 at burst `-3` on a fresh scheduler. -/
theorem claim_C4_witness :
    ((Scheduler.init true false).create_process (-3)).1.burst_time = -3 ∧
    ((Scheduler.init true false).create_process (-3)).1.remaining_time = -3 ∧
    ((Scheduler.init true false).create_process (-3)).1.state = ProcessState.NEW ∧
    ((Scheduler.init true false).create_process (-3)).2.next_pid
      = (Scheduler.init true false).next_pid + 1 ∧
    ((Scheduler.init true false).create_process (-3)).2.new
      = (Scheduler.init true false).new ++ [((Scheduler.init true false).create_process (-3)).1] :=
  claim_C4 (Scheduler.init true false) (-3) (by decide)

/-! ### C5 — depend_on failure conditions -/

/-- Claim C5 counterexample: `depend_on(1, 1)` with pid 1 RUNNING is a
self-dependency, yet it returns `True` and blocks the process waiting on
itself (only the Qt layer screens self-dependencies). -/
theorem claim_C5_counterexample :
    (demoSched.depend_on 1 1).1 = true ∧
    (demoSched.depend_on 1 1).2.blocked
      = [{ demoRunning with state := ProcessState.BLOCKED,
                            block_reason := some BlockReason.DEPENDENCY,
                            waiting_for_pid := some 1 }] ∧
    (demoSched.depend_on 1 1).2.running = none := by
  decide

/-- Claim C5 (amended: `depend_on` fails exactly when the caller pid is not
found; `caller_pid == callee_pid` is *not* rejected): an absent caller
gives `False` with the state unchanged, a found caller always gives
`True`. -/
theorem claim_C5 (s : Scheduler) (caller_pid callee_pid : Nat) :
    (s.get_proc caller_pid = none → s.depend_on caller_pid callee_pid = (false, s)) ∧
    (s.get_proc caller_pid ≠ none → (s.depend_on caller_pid callee_pid).1 = true) := by
  constructor
  · intro h
    simp [Scheduler.depend_on, h]
  · intro h
    cases hg : s.get_proc caller_pid with
    | none => exact absurd hg h
    | some p =>
        simp only [Scheduler.depend_on, hg]
        split
        · rfl
        · rfl

/-- Witness for C5: the failure case on a fresh scheduler (pid 3 absent)
and the success case on `demoSched` (pid 1 running). -/
theorem claim_C5_witness :
    (Scheduler.init false false).depend_on 3 4 = (false, Scheduler.init false false) ∧
    (demoSched.depend_on 1 2).1 = true :=
  ⟨(claim_C5 (Scheduler.init false false) 3 4).1 (by decide),
   (claim_C5 demoSched 1 2).2 (by decide)⟩

/-! ### C8 — class-FIFO removal from the ready queue -/

lemma popFirstWith_eq_some (f : Process → Bool) :
    ∀ (l : List Process) (p : Process) (rest : List Process),
      popFirstWith f l = some (p, rest) →
      ∃ l1 l2, l = l1 ++ p :: l2 ∧ rest = l1 ++ l2 ∧ f p = true ∧ ∀ q ∈ l1, f q = false := by
  intro l
  induction l with
  | nil => intro p rest h; simp [popFirstWith] at h
  | cons a tl ih =>
      intro p rest h
      by_cases ha : f a
      · rw [popFirstWith, if_pos ha] at h
        have h1 : a = p := congrArg (fun x => x.1) (Option.some.inj h)
        have h2 : tl = rest := congrArg (fun x => x.2) (Option.some.inj h)
        exact ⟨[], tl, by simp [h1], by simp [h2], h1 ▸ ha, by simp⟩
      · rw [popFirstWith, if_neg ha] at h
        cases htl : popFirstWith f tl with
        | none => rw [htl] at h; cases h
        | some pr =>
            obtain ⟨q, rest2⟩ := pr
            rw [htl] at h
            have h1 : q = p := congrArg (fun x => x.1) (Option.some.inj h)
            have h2 : a :: rest2 = rest := congrArg (fun x => x.2) (Option.some.inj h)
            obtain ⟨l1, l2, hl, hrest2, hfq, hall⟩ := ih q rest2 htl
            refine ⟨a :: l1, l2, ?_, ?_, h1 ▸ hfq, ?_⟩
            · simp [hl, h1]
            · rw [← h2, hrest2]; rfl
            · intro x hx
              rcases List.mem_cons.mp hx with hxa | hxl
              · rw [hxa]; exact Bool.eq_false_iff.mpr ha
              · exact hall x hxl

/-- Claim C8: a successful `_pop_ready_by_priority` removes exactly the
first ready entry of the requested class — the entries before it are of
other classes — and every other entry keeps its relative order (the new
queue is the old one with that single entry cut out); nothing else in the
scheduler changes. -/
theorem claim_C8 (s : Scheduler) (prio : Priority) (p : Process) (s' : Scheduler)
    (h : s.pop_ready_by_priority prio = (some p, s')) :
    ∃ l1 l2, s.ready = l1 ++ p :: l2 ∧ p.priority = prio ∧
      (∀ q ∈ l1, q.priority ≠ prio) ∧ s' = { s with ready := l1 ++ l2 } := by
  unfold Scheduler.pop_ready_by_priority at h
  cases hp : popFirstWith (fun c => c.priority == prio) s.ready with
  | none => rw [hp] at h; cases h
  | some pr =>
      obtain ⟨q, rest⟩ := pr
      rw [hp] at h
      have hq : q = p := Option.some.inj (congrArg (fun x => x.1) h)
      have hs : ({ s with ready := rest } : Scheduler) = s' := congrArg (fun x => x.2) h
      obtain ⟨l1, l2, hl, hrest, hfq, hall⟩ := popFirstWith_eq_some _ s.ready q rest hp
      have hp2 : p.priority = prio := by rw [← hq]; simpa using hfq
      refine ⟨l1, l2, hq ▸ hl, hp2, ?_, ?_⟩
      · intro x hx
        simpa using hall x hx
      · rw [← hs, hrest]

/-- Sample LOW-priority ready process (pid 2). -/
def demoLow : Process :=
  { pid := 2, arrival_time := 0, burst_time := 3, remaining_time := 3,
    state := ProcessState.READY, priority := Priority.LOW }

/-- Sample MEDIUM-priority ready process (pid 3). -/
def demoMed : Process :=
  { pid := 3, arrival_time := 0, burst_time := 6, remaining_time := 6,
    state := ProcessState.READY, priority := Priority.MEDIUM }

/-- Sample scheduler with ready queue `[demoLow, demoMed]`. -/
def demoReadySched : Scheduler :=
  { Scheduler.init false false with ready := [demoLow, demoMed], next_pid := 4 }

/-- Witness for C8: popping MEDIUM from `[demoLow, demoMed]` returns
`demoMed` past the LOW head. -/
theorem claim_C8_witness :
    ∃ l1 l2, demoReadySched.ready = l1 ++ demoMed :: l2 ∧
      demoMed.priority = Priority.MEDIUM ∧
      (∀ q ∈ l1, q.priority ≠ Priority.MEDIUM) ∧
      (demoReadySched.pop_ready_by_priority Priority.MEDIUM).2
        = { demoReadySched with ready := l1 ++ l2 } :=
  claim_C8 demoReadySched Priority.MEDIUM demoMed
    { demoReadySched with ready := [demoLow] } (by decide)

/-! ### C10 — set_priority -/

lemma mutateLists_running (s : Scheduler) (pid : Nat) (f : Process → Process) :
    (s.mutateLists pid f).running = s.running := by
  unfold Scheduler.mutateLists
  split_ifs <;> rfl

lemma mutateLists_quantum (s : Scheduler) (pid : Nat) (f : Process → Process) :
    (s.mutateLists pid f).quantum_used = s.quantum_used := by
  unfold Scheduler.mutateLists
  split_ifs <;> rfl

/-- Claim C10: `set_priority` on an absent pid is `False` with no change;
on the running pid it sets the priority and resets the used-quantum
counter; on any other found pid it performs only the in-place priority
update (`mutateLists`), leaving the quantum counter and the slot alone. -/
theorem claim_C10 (s : Scheduler) (pid : Nat) (prio : Priority) :
    (s.get_proc pid = none → s.set_priority pid prio = (false, s)) ∧
    (∀ r, s.running = some r → r.pid = pid →
       s.set_priority pid prio
         = (true, { s with running := some { r with priority := prio }, quantum_used := 0 })) ∧
    ((∀ r, s.running = some r → r.pid ≠ pid) → s.get_proc pid ≠ none →
       (s.set_priority pid prio).1 = true ∧
       (s.set_priority pid prio).2 = s.mutateLists pid (fun p => { p with priority := prio }) ∧
       (s.set_priority pid prio).2.quantum_used = s.quantum_used ∧
       (s.set_priority pid prio).2.running = s.running) := by
  refine ⟨?_, ?_, ?_⟩
  · intro h
    simp [Scheduler.set_priority, h]
  · intro r hr hpid
    have hg : s.get_proc pid = some r := by
      simp [Scheduler.get_proc, hr, hpid]
    simp [Scheduler.set_priority, hg, Scheduler.mutateProc, hr, hpid]
  · intro hnr hg
    cases hgp : s.get_proc pid with
    | none => exact absurd hgp hg
    | some p =>
        have hmp : s.mutateProc pid (fun q => { q with priority := prio })
            = s.mutateLists pid (fun q => { q with priority := prio }) := by
          cases hr : s.running with
          | none => simp [Scheduler.mutateProc, hr]
          | some r => simp [Scheduler.mutateProc, hr, hnr r hr]
        have hstep : s.set_priority pid prio
            = (true, s.mutateLists pid (fun q => { q with priority := prio })) := by
          cases hr : s.running with
          | none =>
              simp [Scheduler.set_priority, hgp, hmp, mutateLists_running, hr]
          | some r =>
              simp [Scheduler.set_priority, hgp, hmp, mutateLists_running, hr, hnr r hr]
        rw [hstep]
        exact ⟨rfl, rfl, mutateLists_quantum .., mutateLists_running ..⟩

/-- Witness for C10: the running case on `demoSched` (quantum counter
drops to 0) and the absent-pid case on a fresh scheduler. -/
theorem claim_C10_witness :
    demoSched.set_priority 1 Priority.HIGH
      = (true, { demoSched with running := some { demoRunning with priority := Priority.HIGH },
                                quantum_used := 0 }) ∧
    (Scheduler.init false false).set_priority 7 Priority.LOW
      = (false, Scheduler.init false false) :=
  ⟨(claim_C10 demoSched 1 Priority.HIGH).2.1 demoRunning rfl rfl,
   (claim_C10 (Scheduler.init false false) 7 Priority.LOW).1 (by decide)⟩

/-! ### C7 — completion orphans dependency waiters -/

/-- What `_orphan_dependents` guarantees for one DEPENDENCY-waiter: it
leaves `blocked` and lands in `zombies`, ZOMBIE-stated with its wait
fields cleared. -/
lemma orphan_spec (t : Scheduler) (pid : Nat) (p : Process)
    (hp : p ∈ t.blocked) (hw : waitsOn pid p = true) :
    p ∉ (t.orphan_dependents pid).blocked ∧
    { p with block_reason := none, waiting_for_pid := none,
             state := ProcessState.ZOMBIE } ∈ (t.orphan_dependents pid).zombies := by
  constructor
  · intro hmem
    rcases List.mem_filter.mp hmem with ⟨_, hnot⟩
    rw [hw] at hnot
    exact absurd hnot (by simp)
  · exact List.mem_append.mpr
      (Or.inr (List.mem_map.mpr ⟨p, List.mem_filter.mpr ⟨hp, hw⟩, rfl⟩))

lemma finish_to_state_blocked (s : Scheduler) (proc : Process) :
    (s.finish_to_state proc).blocked = s.blocked := by
  unfold Scheduler.finish_to_state
  split
  · rfl
  · rfl

/-- Sample process DEPENDENCY-blocked on pid 1. -/
def demoWaiter : Process :=
  { pid := 5, arrival_time := 0, burst_time := 2, remaining_time := 2,
    state := ProcessState.BLOCKED, block_reason := some BlockReason.DEPENDENCY,
    waiting_for_pid := some 1 }

/-- Sample scheduler: pid 1 running, `demoWaiter` blocked on it. -/
def demoSchedW : Scheduler := { demoSched with blocked := [demoWaiter] }

/-- Sample ZOMBIE process (pid 1, burst exhausted). -/
def demoZombie : Process :=
  { pid := 1, arrival_time := 0, burst_time := 5, remaining_time := 0,
    state := ProcessState.ZOMBIE }

/-- Sample scheduler: pid 1 is a ZOMBIE and `demoWaiter` is
DEPENDENCY-blocked on it (non-repeat mode, no zombie simulation). -/
def demoSchedZ : Scheduler :=
  { Scheduler.init false false with zombies := [demoZombie], blocked := [demoWaiter] }

/-- Claim C7 counterexample: force-finalizing pid 1 while it sits in
`zombies` succeeds (pid 1 moves to `finished`), yet `demoWaiter` — BLOCKED
with reason DEPENDENCY on pid 1 — is left in `blocked` and nothing is added
to `zombies`: the `for p in list(self.zombies)` branch of `finalize_pid`
never calls `_orphan_dependents`. -/
theorem claim_C7_counterexample :
    demoWaiter.block_reason = some BlockReason.DEPENDENCY ∧
    demoWaiter.waiting_for_pid = some 1 ∧
    (demoSchedZ.finalize_pid 1).1 = true ∧
    (demoSchedZ.finalize_pid 1).2.finished.countP (fun q => q.pid == 1) = 1 ∧
    (demoSchedZ.finalize_pid 1).2.blocked = [demoWaiter] ∧
    (demoSchedZ.finalize_pid 1).2.zombies = [] := by
  decide

/-- Claim C7 (amended: the guarantee holds for natural completion and for
force-finalization of a pid found in the running slot, `ready`, `blocked`
or `finished`; force-finalizing a pid found in `zombies` — the reap branch
— orphans nothing): in each covered case, every process BLOCKED with reason
DEPENDENCY on the completed pid leaves `blocked` and lands in `zombies`
with state ZOMBIE in the same operation. -/
theorem claim_C7 (s : Scheduler) (pid : Nat) (p : Process)
    (hw : waitsOn pid p = true) :
    (∀ r, s.repeat_mode = false → s.running = some r → r.pid = pid → p ∈ s.blocked →
       p ∉ s.finish_running.blocked ∧
       { p with block_reason := none, waiting_for_pid := none,
                state := ProcessState.ZOMBIE } ∈ s.finish_running.zombies) ∧
    (∀ r, s.running = some r → r.pid = pid → p ∈ s.blocked →
       p ∉ (s.finalize_pid pid).2.blocked ∧
       { p with block_reason := none, waiting_for_pid := none,
                state := ProcessState.ZOMBIE } ∈ (s.finalize_pid pid).2.zombies) ∧
    ((∀ r, s.running = some r → r.pid ≠ pid) →
     ∀ q rest, popFirstWith (fun x => x.pid == pid) s.ready = some (q, rest) →
       p ∈ s.blocked →
       p ∉ (s.finalize_pid pid).2.blocked ∧
       { p with block_reason := none, waiting_for_pid := none,
                state := ProcessState.ZOMBIE } ∈ (s.finalize_pid pid).2.zombies) ∧
    ((∀ r, s.running = some r → r.pid ≠ pid) →
     popFirstWith (fun x => x.pid == pid) s.ready = none →
     ∀ q rest, popFirstWith (fun x => x.pid == pid) s.blocked = some (q, rest) →
       p ∈ s.blocked → p.pid ≠ pid →
       p ∉ (s.finalize_pid pid).2.blocked ∧
       { p with block_reason := none, waiting_for_pid := none,
                state := ProcessState.ZOMBIE } ∈ (s.finalize_pid pid).2.zombies) ∧
    ((∀ r, s.running = some r → r.pid ≠ pid) →
     popFirstWith (fun x => x.pid == pid) s.ready = none →
     popFirstWith (fun x => x.pid == pid) s.blocked = none →
     popFirstWith (fun x => x.pid == pid) s.zombies = none →
     ∀ q rest, popFirstWith (fun x => x.pid == pid) s.finished = some (q, rest) →
       p ∈ s.blocked →
       p ∉ (s.finalize_pid pid).2.blocked ∧
       { p with block_reason := none, waiting_for_pid := none,
                state := ProcessState.ZOMBIE } ∈ (s.finalize_pid pid).2.zombies) := by
  have hlists : (∀ r, s.running = some r → r.pid ≠ pid) →
      s.finalize_pid pid = s.finalize_pid_lists pid := by
    intro hnr
    cases hr : s.running with
    | none => simp [Scheduler.finalize_pid, hr]
    | some r => simp [Scheduler.finalize_pid, hr, hnr r hr]
  refine ⟨?_, ?_, ?_, ?_, ?_⟩
  · -- (i) natural completion via _finish_running
    intro r hrep hrun hpid hp
    subst hpid
    have hfilter : p ∉ s.blocked.filter (fun q => !waitsOn r.pid q) := by
      intro hmem
      rcases List.mem_filter.mp hmem with ⟨_, hnot⟩
      rw [hw] at hnot
      exact absurd hnot (by simp)
    have hzmem : { p with block_reason := none, waiting_for_pid := none,
                          state := ProcessState.ZOMBIE }
        ∈ (s.blocked.filter (waitsOn r.pid)).map (fun q =>
            { q with block_reason := none, waiting_for_pid := none,
                     state := ProcessState.ZOMBIE }) :=
      List.mem_map.mpr ⟨p, List.mem_filter.mpr ⟨hp, hw⟩, rfl⟩
    have hfin_b : s.finish_running.blocked
        = s.blocked.filter (fun q => !waitsOn r.pid q) := by
      by_cases hz : s.simulate_zombie <;>
        simp [Scheduler.finish_running, hrun, hrep, hz, Scheduler.orphan_dependents]
    have hfin_z : ∃ pre, s.finish_running.zombies
        = pre ++ (s.blocked.filter (waitsOn r.pid)).map (fun q =>
            { q with block_reason := none, waiting_for_pid := none,
                     state := ProcessState.ZOMBIE }) := by
      by_cases hz : s.simulate_zombie
      · exact ⟨s.zombies ++ [{ r with state := ProcessState.ZOMBIE }],
          by simp [Scheduler.finish_running, hrun, hrep, hz, Scheduler.orphan_dependents]⟩
      · exact ⟨s.zombies,
          by simp [Scheduler.finish_running, hrun, hrep, hz, Scheduler.orphan_dependents]⟩
    constructor
    · rw [hfin_b]
      exact hfilter
    · obtain ⟨pre, hz⟩ := hfin_z
      rw [hz]
      exact List.mem_append.mpr (Or.inr hzmem)
  · -- (ii) finalize_pid on the running pid
    intro r hrun hpid hp
    have heq : (s.finalize_pid pid).2
        = { (s.finish_to_state r).orphan_dependents pid with running := none } := by
      simp only [Scheduler.finalize_pid, hrun, if_pos hpid]
    have hpX : p ∈ (s.finish_to_state r).blocked := by
      rw [finish_to_state_blocked]
      exact hp
    have h := orphan_spec (s.finish_to_state r) pid p hpX hw
    rw [heq]
    exact h
  · -- (iii) finalize_pid on a ready pid
    intro hnr q rest hpop hp
    have heq : (s.finalize_pid pid).2
        = (({ s with ready := rest : Scheduler }).finish_to_state q).orphan_dependents pid := by
      rw [hlists hnr]
      simp only [Scheduler.finalize_pid_lists, hpop]
    have hpX : p ∈ (({ s with ready := rest : Scheduler }).finish_to_state q).blocked := by
      rw [finish_to_state_blocked]
      exact hp
    have h := orphan_spec _ pid p hpX hw
    rw [heq]
    exact h
  · -- (iv) finalize_pid on a blocked pid
    intro hnr hpopR q rest hpop hp hpne
    obtain ⟨l1, l2, hl, hrest, hfq, _⟩ := popFirstWith_eq_some _ s.blocked q rest hpop
    have hqpid : q.pid = pid := by simpa using hfq
    have hpq : p ≠ q := fun hh => hpne (by rw [hh]; exact hqpid)
    have hprest : p ∈ rest := by
      rw [hrest]
      rw [hl] at hp
      rcases List.mem_append.mp hp with hm | hm
      · exact List.mem_append.mpr (Or.inl hm)
      · rcases List.mem_cons.mp hm with hm2 | hm2
        · exact absurd hm2 hpq
        · exact List.mem_append.mpr (Or.inr hm2)
    have heq : (s.finalize_pid pid).2
        = (({ s with blocked := rest : Scheduler }).finish_to_state
            { q with block_reason := none, waiting_for_pid := none,
                     io_remaining := 0 }).orphan_dependents pid := by
      rw [hlists hnr]
      simp only [Scheduler.finalize_pid_lists, hpopR, hpop]
    have hpX : p ∈ (({ s with blocked := rest : Scheduler }).finish_to_state
        { q with block_reason := none, waiting_for_pid := none,
                 io_remaining := 0 }).blocked := by
      rw [finish_to_state_blocked]
      exact hprest
    have h := orphan_spec _ pid p hpX hw
    rw [heq]
    exact h
  · -- (v) finalize_pid on a finished pid
    intro hnr hpopR hpopB hpopZ q rest hpop hp
    have heq : (s.finalize_pid pid).2
        = (({ s with finished := rest : Scheduler }).finish_to_state q).orphan_dependents
            pid := by
      rw [hlists hnr]
      simp only [Scheduler.finalize_pid_lists, hpopR, hpopB, hpopZ, hpop]
    have hpX : p ∈ (({ s with finished := rest : Scheduler }).finish_to_state q).blocked := by
      rw [finish_to_state_blocked]
      exact hp
    have h := orphan_spec _ pid p hpX hw
    rw [heq]
    exact h

/-- Witness for C7: `demoWaiter` waits on pid 1; both finishing the running
pid 1 naturally and force-finalizing it zombify the waiter. -/
theorem claim_C7_witness :
    (demoWaiter ∉ demoSchedW.finish_running.blocked ∧
     { demoWaiter with block_reason := none, waiting_for_pid := none,
                       state := ProcessState.ZOMBIE }
       ∈ demoSchedW.finish_running.zombies) ∧
    (demoWaiter ∉ (demoSchedW.finalize_pid 1).2.blocked ∧
     { demoWaiter with block_reason := none, waiting_for_pid := none,
                       state := ProcessState.ZOMBIE }
       ∈ (demoSchedW.finalize_pid 1).2.zombies) :=
  ⟨(claim_C7 demoSchedW 1 demoWaiter (by decide)).1 demoRunning rfl rfl rfl (by decide),
   (claim_C7 demoSchedW 1 demoWaiter (by decide)).2.1 demoRunning rfl rfl (by decide)⟩

/-! ### C3 — idle-system arrival injection

Field-preservation lemmas: no phase after the arrivals phase touches
`next_pid` or the `_spawned_when_empty` latch, so any creation during a
tick is visible in `next_pid`. -/

lemma advance_wrr_next_pid (s : Scheduler) : s.advance_wrr.next_pid = s.next_pid := rfl

lemma advance_wrr_spawned (s : Scheduler) :
    s.advance_wrr.spawned_when_empty = s.spawned_when_empty := rfl

lemma pop_ready_next_pid (s : Scheduler) (prio : Priority) :
    (s.pop_ready_by_priority prio).2.next_pid = s.next_pid := by
  unfold Scheduler.pop_ready_by_priority
  cases popFirstWith (fun c => c.priority == prio) s.ready with
  | none => rfl
  | some pr => rfl

lemma pop_ready_spawned (s : Scheduler) (prio : Priority) :
    (s.pop_ready_by_priority prio).2.spawned_when_empty = s.spawned_when_empty := by
  unfold Scheduler.pop_ready_by_priority
  cases popFirstWith (fun c => c.priority == prio) s.ready with
  | none => rfl
  | some pr => rfl

lemma chooseLoop_next_pid (n : Nat) : ∀ s : Scheduler,
    (chooseLoop n s).2.next_pid = s.next_pid ∧
    (chooseLoop n s).2.spawned_when_empty = s.spawned_when_empty := by
  induction n with
  | zero =>
      intro s
      unfold chooseLoop
      cases s.ready with
      | nil => exact ⟨rfl, rfl⟩
      | cons a t => exact ⟨rfl, rfl⟩
  | succ n ih =>
      intro s
      simp only [chooseLoop]
      split
      · exact (ih s.advance_wrr)
      · cases hp : s.pop_ready_by_priority (cycleClass s.wrr_idx) with
        | mk fst snd =>
            cases fst with
            | none =>
                have h := ih snd.advance_wrr
                have h2 : snd.next_pid = s.next_pid := by
                  have := pop_ready_next_pid s (cycleClass s.wrr_idx)
                  rw [hp] at this
                  exact this
                have h3 : snd.spawned_when_empty = s.spawned_when_empty := by
                  have := pop_ready_spawned s (cycleClass s.wrr_idx)
                  rw [hp] at this
                  exact this
                exact ⟨h.1.trans (h2.trans rfl), h.2.trans (h3.trans rfl)⟩
            | some p =>
                have h2 : snd.next_pid = s.next_pid := by
                  have := pop_ready_next_pid s (cycleClass s.wrr_idx)
                  rw [hp] at this
                  exact this
                have h3 : snd.spawned_when_empty = s.spawned_when_empty := by
                  have := pop_ready_spawned s (cycleClass s.wrr_idx)
                  rw [hp] at this
                  exact this
                exact ⟨h2, h3⟩

lemma choose_next_next_pid (s : Scheduler) :
    (s.choose_next).2.next_pid = s.next_pid ∧
    (s.choose_next).2.spawned_when_empty = s.spawned_when_empty := by
  unfold Scheduler.choose_next
  split
  · exact ⟨rfl, rfl⟩
  · exact chooseLoop_next_pid 9 s

lemma unblockByRepliesStep_next_pid (s : Scheduler) (p : Process) :
    (unblockByRepliesStep s p).next_pid = s.next_pid ∧
    (unblockByRepliesStep s p).spawned_when_empty = s.spawned_when_empty := by
  simp only [unblockByRepliesStep]
  split
  · split
    · exact ⟨rfl, rfl⟩
    · split
      · exact ⟨rfl, rfl⟩
      · exact ⟨rfl, rfl⟩
  · exact ⟨rfl, rfl⟩

lemma foldl_replies_next_pid : ∀ (l : List Process) (s : Scheduler),
    (l.foldl unblockByRepliesStep s).next_pid = s.next_pid ∧
    (l.foldl unblockByRepliesStep s).spawned_when_empty = s.spawned_when_empty := by
  intro l
  induction l with
  | nil => intro s; exact ⟨rfl, rfl⟩
  | cons a t ih =>
      intro s
      have h := ih (unblockByRepliesStep s a)
      have h2 := unblockByRepliesStep_next_pid s a
      exact ⟨h.1.trans h2.1, h.2.trans h2.2⟩

lemma revivePhase_next_pid (s : Scheduler) :
    s.revivePhase.next_pid = s.next_pid ∧
    s.revivePhase.spawned_when_empty = s.spawned_when_empty := by
  unfold Scheduler.revivePhase Scheduler.revive_for_cycle
  split
  · exact ⟨rfl, rfl⟩
  · exact ⟨rfl, rfl⟩

lemma finish_running_next_pid (s : Scheduler) :
    s.finish_running.next_pid = s.next_pid ∧
    s.finish_running.spawned_when_empty = s.spawned_when_empty := by
  unfold Scheduler.finish_running
  split
  · exact ⟨rfl, rfl⟩
  · split
    · exact ⟨rfl, rfl⟩
    · split
      · exact ⟨rfl, rfl⟩
      · exact ⟨rfl, rfl⟩

lemma preempt_next_pid (s : Scheduler) :
    s.preempt_running_if_needed.next_pid = s.next_pid ∧
    s.preempt_running_if_needed.spawned_when_empty = s.spawned_when_empty := by
  unfold Scheduler.preempt_running_if_needed
  split
  · exact ⟨rfl, rfl⟩
  · split
    · exact ⟨rfl, rfl⟩
    · exact ⟨rfl, rfl⟩

lemma block_running_next_pid (s : Scheduler) (reason : BlockReason) (d : Int) :
    (s.block_running reason d).2.next_pid = s.next_pid ∧
    (s.block_running reason d).2.spawned_when_empty = s.spawned_when_empty := by
  unfold Scheduler.block_running
  cases s.running with
  | none => exact ⟨rfl, rfl⟩
  | some r => exact ⟨rfl, rfl⟩

lemma execPhase_next_pid (s : Scheduler) (ab : Bool) (o : TickOracle) :
    (s.execPhase ab o).next_pid = s.next_pid ∧
    (s.execPhase ab o).spawned_when_empty = s.spawned_when_empty := by
  cases hr : s.running with
  | none => simp [Scheduler.execPhase, hr]
  | some r =>
      simp only [Scheduler.execPhase, hr]
      constructor
      · split
        · exact (block_running_next_pid _ _ _).1.trans rfl
        · split
          · exact (finish_running_next_pid _).1.trans rfl
          · exact (preempt_next_pid _).1.trans rfl
      · split
        · exact (block_running_next_pid _ _ _).2.trans rfl
        · split
          · exact (finish_running_next_pid _).2.trans rfl
          · exact (preempt_next_pid _).2.trans rfl

lemma restPhases_next_pid (s : Scheduler) (ab : Bool) (o : TickOracle) :
    (s.admit_all_new.ioCountdownPhase.unblock_by_replies.revivePhase.dispatchPhase.execPhase
      ab o).next_pid = s.next_pid ∧
    (s.admit_all_new.ioCountdownPhase.unblock_by_replies.revivePhase.dispatchPhase.execPhase
      ab o).spawned_when_empty = s.spawned_when_empty := by
  have hexec := execPhase_next_pid
    s.admit_all_new.ioCountdownPhase.unblock_by_replies.revivePhase.dispatchPhase ab o
  have hdis := choose_next_next_pid s.admit_all_new.ioCountdownPhase.unblock_by_replies.revivePhase
  have hrev := revivePhase_next_pid s.admit_all_new.ioCountdownPhase.unblock_by_replies
  have hrep := foldl_replies_next_pid s.admit_all_new.ioCountdownPhase.blocked
    s.admit_all_new.ioCountdownPhase
  have hdis1 : s.admit_all_new.ioCountdownPhase.unblock_by_replies.revivePhase.dispatchPhase.next_pid
      = s.admit_all_new.ioCountdownPhase.unblock_by_replies.revivePhase.next_pid := by
    unfold Scheduler.dispatchPhase
    cases s.admit_all_new.ioCountdownPhase.unblock_by_replies.revivePhase.running with
    | some r => rfl
    | none => exact hdis.1
  have hdis2 :
      s.admit_all_new.ioCountdownPhase.unblock_by_replies.revivePhase.dispatchPhase.spawned_when_empty
      = s.admit_all_new.ioCountdownPhase.unblock_by_replies.revivePhase.spawned_when_empty := by
    unfold Scheduler.dispatchPhase
    cases s.admit_all_new.ioCountdownPhase.unblock_by_replies.revivePhase.running with
    | some r => rfl
    | none => exact hdis.2
  constructor
  · exact hexec.1.trans (hdis1.trans (hrev.1.trans (hrep.1.trans rfl)))
  · exact hexec.2.trans (hdis2.trans (hrev.2.trans (hrep.2.trans rfl)))

/-- Sample scheduler holding only `demoWaiter` in `blocked`. -/
def demoBlockedOnly : Scheduler :=
  { Scheduler.init false false with blocked := [demoWaiter] }

/-- Claim C3 counterexample: `demoBlockedOnly` has no NEW, READY or RUNNING
process (fully idle in the claim's sense) and `auto_arrivals` is on, yet a
tick whose 5%-draw misses injects nothing — the code's idle test counts
BLOCKED processes as activity (`running/ready/blocked`, not
`new/ready/running` as `system_empty` would). -/
theorem claim_C3_counterexample :
    demoBlockedOnly.new = [] ∧ demoBlockedOnly.ready = [] ∧
    demoBlockedOnly.running = none ∧ demoBlockedOnly.spawned_when_empty = false ∧
    (demoBlockedOnly.tick true false quietOracle).next_pid = demoBlockedOnly.next_pid := by
  decide

/-- Claim C3 (amended: the idle test is "no RUNNING, READY or *BLOCKED*
process" — NEW is irrelevant — plus the once-per-idle-period latch): under
that condition a tick with auto-arrivals injects exactly one process
(without consulting the per-tick probability) and sets the latch; with the
latch already set it injects none. -/
theorem claim_C3 (s : Scheduler) (ab : Bool) (o : TickOracle)
    (hrun : s.running = none) (hready : s.ready = []) (hblocked : s.blocked = []) :
    (s.spawned_when_empty = false →
       (s.tick true ab o).next_pid = s.next_pid + 1 ∧
       (s.tick true ab o).spawned_when_empty = true) ∧
    (s.spawned_when_empty = true →
       (s.tick true ab o).next_pid = s.next_pid) := by
  constructor
  · intro hflag
    have harr : ({ s with time := s.time + 1 : Scheduler }).arrivalsPhase true o
        = { (({ s with time := s.time + 1 : Scheduler }).create_process o.arriveBurst).2 with
              spawned_when_empty := true } := by
      unfold Scheduler.arrivalsPhase
      simp [hrun, hready, hblocked, hflag]
    unfold Scheduler.tick
    rw [harr]
    exact ⟨(restPhases_next_pid _ ab o).1.trans rfl, (restPhases_next_pid _ ab o).2.trans rfl⟩
  · intro hflag
    have harr : ({ s with time := s.time + 1 : Scheduler }).arrivalsPhase true o
        = { s with time := s.time + 1 } := by
      unfold Scheduler.arrivalsPhase
      simp [hrun, hready, hblocked, hflag]
    unfold Scheduler.tick
    rw [harr]
    exact (restPhases_next_pid _ ab o).1.trans rfl

/-- Witness for C3: on a fresh scheduler (fully idle, latch unset) a tick
with auto-arrivals creates exactly one process; with the latch set it
creates none. -/
theorem claim_C3_witness :
    (((Scheduler.init false false).tick true false quietOracle).next_pid
        = (Scheduler.init false false).next_pid + 1 ∧
      ((Scheduler.init false false).tick true false quietOracle).spawned_when_empty = true) ∧
    (({ Scheduler.init false false with spawned_when_empty := true : Scheduler
      }).tick true false quietOracle).next_pid
      = ({ Scheduler.init false false with spawned_when_empty := true : Scheduler }).next_pid :=
  ⟨(claim_C3 (Scheduler.init false false) false quietOracle rfl rfl rfl).1 rfl,
   (claim_C3 { Scheduler.init false false with spawned_when_empty := true } false quietOracle
      rfl rfl rfl).2 rfl⟩

/-! ### C6 — quantum bound and forced preemption -/

lemma finish_running_running (t : Scheduler) : t.finish_running.running = none := by
  cases ht : t.running with
  | none => simp [Scheduler.finish_running, ht]
  | some r =>
      simp only [Scheduler.finish_running, ht]
      split
      · rfl
      · rfl

/-- If the preemption check leaves a process in the slot while READY is
non-empty, it is the pre-check process, the state is unchanged, and its
used quantum is still below its class quantum. -/
lemma preempt_quantum (t : Scheduler) (p : Process)
    (hp : t.preempt_running_if_needed.running = some p)
    (hready : t.preempt_running_if_needed.ready ≠ []) :
    t.running = some p ∧ t.preempt_running_if_needed = t ∧
    t.quantum_used < PRIO_QUANTUM p.priority := by
  cases ht : t.running with
  | none => simp [Scheduler.preempt_running_if_needed, ht] at hp
  | some r =>
      by_cases hc : PRIO_QUANTUM r.priority ≤ t.quantum_used ∧ 0 < t.ready.length
      · simp only [Scheduler.preempt_running_if_needed, ht, if_pos hc] at hp
        exact Option.noConfusion hp
      · have heq : t.preempt_running_if_needed = t := by
          simp only [Scheduler.preempt_running_if_needed, ht, if_neg hc]
        rw [heq] at hp hready
        refine ⟨ht.symm.trans hp, heq, ?_⟩
        have hlen : 0 < t.ready.length := List.length_pos.mpr hready
        have hq : ¬ PRIO_QUANTUM r.priority ≤ t.quantum_used := fun h => hc ⟨h, hlen⟩
        have hrp : r = p := Option.some.inj (ht.symm.trans hp)
        rw [← hrp]
        exact Nat.not_le.mp hq

/-- After the execution phase, a still-RUNNING process facing a non-empty
READY queue has used strictly less than its class quantum. -/
lemma execPhase_quantum (s : Scheduler) (ab : Bool) (o : TickOracle) :
    ∀ p, (s.execPhase ab o).running = some p → (s.execPhase ab o).ready ≠ [] →
      (s.execPhase ab o).quantum_used < PRIO_QUANTUM p.priority := by
  intro p hp hready
  cases hr : s.running with
  | none =>
      simp only [Scheduler.execPhase, hr] at hp
      exact Option.noConfusion hp
  | some r =>
      simp only [Scheduler.execPhase, hr] at hp hready ⊢
      by_cases hb : (ab && o.blockDraw) = true
      · rw [if_pos hb] at hp
        have hnone : ((s.unblock_dependents_of r.pid).block_running BlockReason.Io
            o.ioDur).2.running = none := by
          have hr1 : (s.unblock_dependents_of r.pid).running = some r := hr
          unfold Scheduler.block_running
          rw [hr1]
        rw [hnone] at hp
        exact Option.noConfusion hp
      · rw [if_neg hb] at hp hready ⊢
        by_cases hfin : r.remaining_time - 1 ≤ (0 : Int)
        · rw [if_pos hfin] at hp
          rw [finish_running_running] at hp
          exact Option.noConfusion hp
        · rw [if_neg hfin] at hp hready ⊢
          obtain ⟨_, heq, hlt⟩ := preempt_quantum _ p hp hready
          rw [heq]
          exact hlt

/-- Claim C6: (i) at the end of any `tick`, if a process is still RUNNING
while READY is non-empty, its used-quantum counter is strictly below its
priority's quantum — it is never charged more consecutive ticks than the
quantum; (ii) when the RUNNING process has consumed its full quantum and
READY is non-empty, `_preempt_running_if_needed` moves it, READY-stated and
scrubbed, to the tail of the ready queue and clears the slot. -/
theorem claim_C6 (s : Scheduler) (aa ab : Bool) (o : TickOracle) :
    (∀ p, (s.tick aa ab o).running = some p → (s.tick aa ab o).ready ≠ [] →
       (s.tick aa ab o).quantum_used < PRIO_QUANTUM p.priority) ∧
    (∀ r, s.running = some r → PRIO_QUANTUM r.priority ≤ s.quantum_used → s.ready ≠ [] →
       s.preempt_running_if_needed
         = { s with running := none,
                    ready := s.ready ++ [{ r with state := ProcessState.READY,
                                                  block_reason := none,
                                                  waiting_for_pid := none,
                                                  io_remaining := 0 }] }) := by
  constructor
  · exact execPhase_quantum _ ab o
  · intro r hr hq hready
    have hc : PRIO_QUANTUM r.priority ≤ s.quantum_used ∧ 0 < s.ready.length :=
      ⟨hq, List.length_pos.mpr hready⟩
    simp only [Scheduler.preempt_running_if_needed, hr, if_pos hc]

/-- Sample scheduler: pid 1 RUNNING with quantum fresh, one LOW process
queued. -/
def demoQuantum : Scheduler :=
  { Scheduler.init false false with running := some demoRunning, ready := [demoLow] }

/-- Sample scheduler: pid 1 RUNNING with its MEDIUM quantum (2) consumed,
one LOW process queued. -/
def demoExhausted : Scheduler :=
  { Scheduler.init false false with running := some demoRunning, ready := [demoLow],
                                    quantum_used := 2 }

/-- Witness for C6: after one quiet tick on `demoQuantum` the running
process has 1 < 2 quantum used; on `demoExhausted` the preemption helper
re-queues pid 1 at the tail and clears the slot. -/
theorem claim_C6_witness :
    ((demoQuantum.tick false false quietOracle).quantum_used
       < PRIO_QUANTUM ({ demoRunning with remaining_time := 3 } : Process).priority) ∧
    demoExhausted.preempt_running_if_needed
      = { demoExhausted with
            running := none,
            ready := demoExhausted.ready ++ [{ demoRunning with state := ProcessState.READY,
                                                                block_reason := none,
                                                                waiting_for_pid := none,
                                                                io_remaining := 0 }] } :=
  ⟨(claim_C6 demoQuantum false false quietOracle).1
      { demoRunning with remaining_time := 3 } (by decide) (by decide),
   (claim_C6 demoExhausted false false quietOracle).2 demoRunning rfl (by decide) (by decide)⟩

/-! ### C1 — single-runner invariant -/

lemma collOK_append {l1 l2 : List Process} :
    collOK (l1 ++ l2) ↔ (collOK l1 ∧ collOK l2) := by
  constructor
  · intro h
    exact ⟨fun p hp => h p (List.mem_append.mpr (Or.inl hp)),
           fun p hp => h p (List.mem_append.mpr (Or.inr hp))⟩
  · rintro ⟨h1, h2⟩ p hp
    rcases List.mem_append.mp hp with hm | hm
    · exact h1 p hm
    · exact h2 p hm

lemma collOK_nil : collOK [] := by
  intro p hp
  cases hp

lemma collOK_filter {l : List Process} (h : collOK l) (f : Process → Bool) :
    collOK (l.filter f) :=
  fun p hp => h p (List.mem_filter.mp hp).1

lemma collOK_map {l : List Process} (f : Process → Process)
    (hf : ∀ p, (f p).state ≠ ProcessState.RUNNING) : collOK (l.map f) := by
  intro p hp
  rcases List.mem_map.mp hp with ⟨q, _, hq⟩
  rw [← hq]
  exact hf q

lemma removeFirstEq_subset (p : Process) :
    ∀ (l : List Process) (q : Process), q ∈ removeFirstEq p l → q ∈ l := by
  intro l
  induction l with
  | nil => intro q hq; cases hq
  | cons a t ih =>
      intro q hq
      unfold removeFirstEq at hq
      by_cases ha : a = p
      · rw [if_pos ha] at hq
        exact List.mem_cons_of_mem _ hq
      · rw [if_neg ha] at hq
        rcases List.mem_cons.mp hq with hqa | hqt
        · exact hqa ▸ List.mem_cons_self _ _
        · exact List.mem_cons_of_mem _ (ih q hqt)

lemma create_noRun (s : Scheduler) (b : Int) (h : s.NoRunQueued) :
    ((s.create_process b).2).NoRunQueued := by
  obtain ⟨h1, h2, h3, h4, h5⟩ := h
  refine ⟨?_, h2, h3, h4, h5⟩
  intro p hp
  rcases List.mem_append.mp hp with hm | hm
  · exact h1 p hm
  · rw [List.mem_singleton.mp hm]
    exact fun hc => ProcessState.noConfusion hc

lemma arrivalsPhase_noRun (s : Scheduler) (aa : Bool) (o : TickOracle)
    (h : s.NoRunQueued) : (s.arrivalsPhase aa o).NoRunQueued := by
  simp only [Scheduler.arrivalsPhase]
  split
  · repeat' split
    all_goals first
      | exact create_noRun s o.arriveBurst h
      | exact h
  · exact h

lemma admit_noRun (s : Scheduler) (h : s.NoRunQueued) : s.admit_all_new.NoRunQueued := by
  obtain ⟨h1, h2, h3, h4, h5⟩ := h
  refine ⟨collOK_nil, ?_, h3, h4, h5⟩
  exact collOK_append.mpr ⟨h2, collOK_map _ (fun p => fun hc => ProcessState.noConfusion hc)⟩

lemma ioStep_fold_ok : ∀ (l : List Process) (acc : List Process × List Process),
    collOK l → collOK acc.1 → collOK acc.2 →
    collOK (l.foldl ioStep acc).1 ∧ collOK (l.foldl ioStep acc).2 := by
  intro l
  induction l with
  | nil => intro acc _ h1 h2; exact ⟨h1, h2⟩
  | cons a t ih =>
      intro acc hc h1 h2
      have ha : a.state ≠ ProcessState.RUNNING := hc a (List.mem_cons_self _ _)
      have ht : collOK t := fun p hp => hc p (List.mem_cons_of_mem _ hp)
      refine ih (ioStep acc a) ht ?_ ?_
      · simp only [ioStep]
        split
        · split
          · exact h1
          · refine collOK_append.mpr ⟨h1, ?_⟩
            intro q hq
            rw [List.mem_singleton.mp hq]
            exact ha
        · refine collOK_append.mpr ⟨h1, ?_⟩
          intro q hq
          rw [List.mem_singleton.mp hq]
          exact ha
      · simp only [ioStep]
        split
        · split
          · refine collOK_append.mpr ⟨h2, ?_⟩
            intro q hq
            rw [List.mem_singleton.mp hq]
            exact fun hcon => ProcessState.noConfusion hcon
          · exact h2
        · exact h2

lemma ioPhase_noRun (s : Scheduler) (h : s.NoRunQueued) :
    s.ioCountdownPhase.NoRunQueued := by
  obtain ⟨h1, h2, h3, h4, h5⟩ := h
  obtain ⟨hb, hr⟩ := ioStep_fold_ok s.blocked ([], []) h3 collOK_nil collOK_nil
  exact ⟨h1, collOK_append.mpr ⟨h2, hr⟩, hb, h4, h5⟩

lemma repliesStep_noRun (s : Scheduler) (p : Process) (h : s.NoRunQueued) :
    (unblockByRepliesStep s p).NoRunQueued := by
  obtain ⟨h1, h2, h3, h4, h5⟩ := h
  simp only [unblockByRepliesStep]
  split
  · split
    · exact ⟨h1, h2, h3, h4, h5⟩
    · split
      · exact ⟨h1, h2, h3, h4, h5⟩
      · refine ⟨h1, collOK_append.mpr ⟨h2, ?_⟩, ?_, h4, h5⟩
        · intro q hq
          rw [List.mem_singleton.mp hq]
          exact fun hcon => ProcessState.noConfusion hcon
        · intro q hq
          exact h3 q (removeFirstEq_subset _ _ _ hq)
  · exact ⟨h1, h2, h3, h4, h5⟩

lemma foldl_replies_noRun : ∀ (l : List Process) (s : Scheduler),
    s.NoRunQueued → (l.foldl unblockByRepliesStep s).NoRunQueued := by
  intro l
  induction l with
  | nil => intro s h; exact h
  | cons a t ih => intro s h; exact ih (unblockByRepliesStep s a) (repliesStep_noRun s a h)

lemma unblock_by_replies_noRun (s : Scheduler) (h : s.NoRunQueued) :
    s.unblock_by_replies.NoRunQueued :=
  foldl_replies_noRun s.blocked s h

lemma revive_noRun (s : Scheduler) (h : s.NoRunQueued) : s.revivePhase.NoRunQueued := by
  unfold Scheduler.revivePhase
  split
  · obtain ⟨h1, h2, h3, h4, h5⟩ := h
    simp only [Scheduler.revive_for_cycle, if_pos]
    refine ⟨h1, ?_, h3, ?_, collOK_nil⟩
    · refine collOK_append.mpr ⟨collOK_append.mpr ⟨h2, ?_⟩, ?_⟩ <;>
        exact collOK_map _ (fun p => fun hcon => ProcessState.noConfusion hcon)
    · exact collOK_nil
  · exact h

lemma pop_ready_colls (s : Scheduler) (prio : Priority) :
    (∀ q ∈ (s.pop_ready_by_priority prio).2.ready, q ∈ s.ready) ∧
    (s.pop_ready_by_priority prio).2.new = s.new ∧
    (s.pop_ready_by_priority prio).2.blocked = s.blocked ∧
    (s.pop_ready_by_priority prio).2.finished = s.finished ∧
    (s.pop_ready_by_priority prio).2.zombies = s.zombies := by
  unfold Scheduler.pop_ready_by_priority
  cases hp : popFirstWith (fun c => c.priority == prio) s.ready with
  | none => exact ⟨fun q hq => hq, rfl, rfl, rfl, rfl⟩
  | some pr =>
      obtain ⟨q0, rest⟩ := pr
      obtain ⟨l1, l2, hl, hrest, _, _⟩ := popFirstWith_eq_some _ s.ready q0 rest hp
      refine ⟨?_, rfl, rfl, rfl, rfl⟩
      intro q hq
      rw [hl]
      rw [show ({ s with ready := rest : Scheduler }).ready = rest from rfl, hrest] at hq
      rcases List.mem_append.mp hq with hm | hm
      · exact List.mem_append.mpr (Or.inl hm)
      · exact List.mem_append.mpr (Or.inr (List.mem_cons_of_mem _ hm))

lemma chooseLoop_colls (n : Nat) : ∀ s : Scheduler,
    (∀ q ∈ (chooseLoop n s).2.ready, q ∈ s.ready) ∧
    (chooseLoop n s).2.new = s.new ∧
    (chooseLoop n s).2.blocked = s.blocked ∧
    (chooseLoop n s).2.finished = s.finished ∧
    (chooseLoop n s).2.zombies = s.zombies := by
  induction n with
  | zero =>
      intro s
      simp only [chooseLoop]
      cases hr : s.ready with
      | nil =>
          refine ⟨?_, rfl, rfl, rfl, rfl⟩
          intro q hq
          rw [← hr]
          exact hq
      | cons a rest =>
          refine ⟨?_, rfl, rfl, rfl, rfl⟩
          intro q hq
          exact List.mem_cons_of_mem _ hq
  | succ n ih =>
      intro s
      simp only [chooseLoop]
      split
      · have h := ih s.advance_wrr
        exact ⟨h.1, h.2.1.trans rfl, h.2.2.1.trans rfl, h.2.2.2.1.trans rfl,
               h.2.2.2.2.trans rfl⟩
      · cases hp : s.pop_ready_by_priority (cycleClass s.wrr_idx) with
        | mk fst snd =>
            have hcol := pop_ready_colls s (cycleClass s.wrr_idx)
            rw [hp] at hcol
            cases fst with
            | none =>
                have h := ih snd.advance_wrr
                refine ⟨fun q hq => hcol.1 q (h.1 q hq),
                        h.2.1.trans (hcol.2.1),
                        h.2.2.1.trans (hcol.2.2.1),
                        h.2.2.2.1.trans (hcol.2.2.2.1),
                        h.2.2.2.2.trans (hcol.2.2.2.2)⟩
            | some p =>
                exact ⟨fun q hq => hcol.1 q hq, hcol.2.1, hcol.2.2.1,
                       hcol.2.2.2.1, hcol.2.2.2.2⟩

lemma choose_next_colls (s : Scheduler) :
    (∀ q ∈ (s.choose_next).2.ready, q ∈ s.ready) ∧
    (s.choose_next).2.new = s.new ∧
    (s.choose_next).2.blocked = s.blocked ∧
    (s.choose_next).2.finished = s.finished ∧
    (s.choose_next).2.zombies = s.zombies := by
  unfold Scheduler.choose_next
  split
  · exact ⟨fun q hq => hq, rfl, rfl, rfl, rfl⟩
  · exact chooseLoop_colls 9 s

lemma dispatch_noRun (s : Scheduler) (h : s.NoRunQueued) : s.dispatchPhase.NoRunQueued := by
  unfold Scheduler.dispatchPhase
  cases hr : s.running with
  | some r => exact h
  | none =>
      obtain ⟨h1, h2, h3, h4, h5⟩ := h
      have hc := choose_next_colls s
      exact ⟨fun p hp => h1 p (hc.2.1 ▸ hp),
             fun p hp => h2 p (hc.1 p hp),
             fun p hp => h3 p (hc.2.2.1 ▸ hp),
             fun p hp => h4 p (hc.2.2.2.1 ▸ hp),
             fun p hp => h5 p (hc.2.2.2.2 ▸ hp)⟩

lemma unblock_dependents_noRun (s : Scheduler) (pid : Nat) (h : s.NoRunQueued) :
    (s.unblock_dependents_of pid).NoRunQueued := by
  obtain ⟨h1, h2, h3, h4, h5⟩ := h
  refine ⟨h1, collOK_append.mpr ⟨h2, ?_⟩, collOK_filter h3 _, h4, h5⟩
  exact collOK_map _ (fun p => fun hcon => ProcessState.noConfusion hcon)

lemma orphan_noRun (s : Scheduler) (pid : Nat) (h : s.NoRunQueued) :
    (s.orphan_dependents pid).NoRunQueued := by
  obtain ⟨h1, h2, h3, h4, h5⟩ := h
  refine ⟨h1, h2, collOK_filter h3 _, h4, collOK_append.mpr ⟨h5, ?_⟩⟩
  exact collOK_map _ (fun p => fun hcon => ProcessState.noConfusion hcon)

lemma block_running_noRun (s : Scheduler) (reason : BlockReason) (d : Int)
    (h : s.NoRunQueued) : ((s.block_running reason d).2).NoRunQueued := by
  obtain ⟨h1, h2, h3, h4, h5⟩ := h
  cases hrun : s.running with
  | none =>
      simp only [Scheduler.block_running, hrun]
      exact ⟨h1, h2, h3, h4, h5⟩
  | some r =>
      simp only [Scheduler.block_running, hrun]
      refine ⟨h1, h2, collOK_append.mpr ⟨h3, ?_⟩, h4, h5⟩
      intro q hq
      rw [List.mem_singleton.mp hq]
      split
      · split <;> exact fun hcon => ProcessState.noConfusion hcon
      · split <;> exact fun hcon => ProcessState.noConfusion hcon

lemma finish_running_noRun (s : Scheduler) (h : s.NoRunQueued) :
    s.finish_running.NoRunQueued := by
  cases hr : s.running with
  | none =>
      simp only [Scheduler.finish_running, hr]
      exact h
  | some r =>
      obtain ⟨h1, h2, h3, h4, h5⟩ := h
      simp only [Scheduler.finish_running, hr]
      split
      · refine ⟨h1, collOK_append.mpr ⟨h2, ?_⟩, h3, h4, h5⟩
        intro q hq
        rw [List.mem_singleton.mp hq]
        exact fun hcon => ProcessState.noConfusion hcon
      · split
        · have hsing : collOK [{ r with state := ProcessState.ZOMBIE }] := by
            intro q hq
            rw [List.mem_singleton.mp hq]
            exact fun hcon => ProcessState.noConfusion hcon
          exact orphan_noRun
            { s with zombies := s.zombies ++ [{ r with state := ProcessState.ZOMBIE }] } r.pid
            ⟨h1, h2, h3, h4, collOK_append.mpr ⟨h5, hsing⟩⟩
        · have hsing : collOK [{ r with state := ProcessState.FINISHED }] := by
            intro q hq
            rw [List.mem_singleton.mp hq]
            exact fun hcon => ProcessState.noConfusion hcon
          exact orphan_noRun
            { s with finished := s.finished ++ [{ r with state := ProcessState.FINISHED }] } r.pid
            ⟨h1, h2, h3, collOK_append.mpr ⟨h4, hsing⟩, h5⟩

lemma preempt_noRun (s : Scheduler) (h : s.NoRunQueued) :
    s.preempt_running_if_needed.NoRunQueued := by
  obtain ⟨h1, h2, h3, h4, h5⟩ := h
  cases hrun : s.running with
  | none =>
      simp only [Scheduler.preempt_running_if_needed, hrun]
      exact ⟨h1, h2, h3, h4, h5⟩
  | some r =>
      simp only [Scheduler.preempt_running_if_needed, hrun]
      split
      · refine ⟨h1, collOK_append.mpr ⟨h2, ?_⟩, h3, h4, h5⟩
        intro q hq
        rw [List.mem_singleton.mp hq]
        exact fun hcon => ProcessState.noConfusion hcon
      · exact ⟨h1, h2, h3, h4, h5⟩

lemma execPhase_noRun (s : Scheduler) (ab : Bool) (o : TickOracle)
    (h : s.NoRunQueued) : (s.execPhase ab o).NoRunQueued := by
  cases hr : s.running with
  | none =>
      simp only [Scheduler.execPhase, hr]
      exact h
  | some r =>
      simp only [Scheduler.execPhase, hr]
      split
      · exact block_running_noRun _ _ _ (unblock_dependents_noRun s r.pid h)
      · split
        · exact finish_running_noRun _ (unblock_dependents_noRun s r.pid h)
        · exact preempt_noRun _ (unblock_dependents_noRun s r.pid h)

/-- Claim C1: a tick started from a state whose five collections store no
RUNNING process ends the same way — so at most one process (the slot's, if
any) has state RUNNING after every `tick()`. -/
theorem claim_C1 (s : Scheduler) (aa ab : Bool) (o : TickOracle) (h : s.NoRunQueued) :
    (s.tick aa ab o).NoRunQueued ∧
    ((s.tick aa ab o).allProcs.countP (fun p => p.state == ProcessState.RUNNING)) ≤ 1 := by
  have hq : (s.tick aa ab o).NoRunQueued :=
    execPhase_noRun _ ab o (dispatch_noRun _ (revive_noRun _ (unblock_by_replies_noRun _
      (ioPhase_noRun _ (admit_noRun _ (arrivalsPhase_noRun _ aa o h))))))
  refine ⟨hq, ?_⟩
  obtain ⟨h1, h2, h3, h4, h5⟩ := hq
  have z : ∀ (l : List Process), collOK l →
      l.countP (fun p => p.state == ProcessState.RUNNING) = 0 := by
    intro l hl
    apply List.countP_eq_zero.mpr
    intro a ha
    simp only [beq_iff_eq]
    exact hl a ha
  have hrun : ((s.tick aa ab o).running.toList.countP
      (fun p => p.state == ProcessState.RUNNING)) ≤ 1 := by
    cases (s.tick aa ab o).running with
    | none => simp
    | some r => exact (List.countP_le_length _).trans (by simp)
  calc (s.tick aa ab o).allProcs.countP (fun p => p.state == ProcessState.RUNNING)
      = (s.tick aa ab o).running.toList.countP (fun p => p.state == ProcessState.RUNNING)
        + 0 + 0 + 0 + 0 + 0 := by
        simp only [Scheduler.allProcs, List.countP_append, z _ h1, z _ h2, z _ h3,
                   z _ h4, z _ h5]
    _ ≤ 1 := by simpa using hrun

instance (l : List Process) : Decidable (collOK l) :=
  inferInstanceAs (Decidable (∀ p ∈ l, p.state ≠ ProcessState.RUNNING))

instance (s : Scheduler) : Decidable s.NoRunQueued :=
  inferInstanceAs (Decidable (_ ∧ _ ∧ _ ∧ _ ∧ _))

/-- Witness for C1 on `demoQuantum` (one running, one queued process). -/
theorem claim_C1_witness :
    (demoQuantum.tick false false quietOracle).NoRunQueued ∧
    ((demoQuantum.tick false false quietOracle).allProcs.countP
      (fun p => p.state == ProcessState.RUNNING)) ≤ 1 :=
  claim_C1 demoQuantum false false quietOracle (by decide)

/-! ### C9 — one-collection-per-process invariant -/

/-- Sample process BLOCKED on I/O (pid 1, 5 ticks left). -/
def demoIoBlocked : Process :=
  { pid := 1, arrival_time := 0, burst_time := 5, remaining_time := 5,
    state := ProcessState.BLOCKED, block_reason := some BlockReason.Io,
    io_remaining := 5 }

/-- Sample scheduler whose only process is `demoIoBlocked` in `blocked`. -/
def demoSchedBug : Scheduler :=
  { Scheduler.init false false with blocked := [demoIoBlocked] }

/-- Claim C9 (code bug): `depend_on(1, 2)` on a scheduler whose pid 1 sits
in `blocked` mutates the blocked entry in place, fails to remove it (the
code only tries `self.ready.remove`), and appends the same process to
`blocked` again — pid 1 then occupies two slots of one collection, so
membership no longer mirrors `state` one-to-one.  Before the call pid 1
appears once; after it, twice. -/
theorem claim_C9 :
    demoSchedBug.blocked.countP (fun q => q.pid == 1) = 1 ∧
    (demoSchedBug.depend_on 1 2).1 = true ∧
    (demoSchedBug.depend_on 1 2).2.blocked.countP (fun q => q.pid == 1) = 2 ∧
    (demoSchedBug.depend_on 1 2).2.allProcs.countP (fun q => q.pid == 1) = 2 := by
  decide

end Simulador
